import Mathlib

/-!
Verification development for the PeaQL in-process SQL engine.

Each definition below is a shallow embedding of a function of the
TypeScript source (file and line references are given in the doc
comments).  JavaScript numbers are modelled by dedicated constructors
for integers, NaN and the two infinities; `undefined` and `null` are
identified (the engine treats them alike in every embedded code path);
a `Decimal` is modelled by its rational value.
-/

namespace PeaQL

/-- Runtime scalar values of the engine (src/lib/query/types.ts).  A
value is null, a number (integer-valued, NaN, or an infinity), a
string, a boolean, or a Decimal (modelled by its rational value). -/
inductive Value where
  | vNull : Value
  | vInt (n : Int) : Value
  | vNaN : Value
  | vInf (pos : Bool) : Value
  | vStr (s : String) : Value
  | vBool (b : Bool) : Value
  | vDec (q : ℚ) : Value
  deriving DecidableEq, Repr

/-- `isNull` from src/lib/query/types.ts lines 366-368:
`value === null || value === undefined || Number.isNaN(value)`.
NaN counts as null; the infinities do not. -/
def isNull : Value → Bool
  | .vNull => true
  | .vNaN => true
  | _ => false

/-- JavaScript truthiness of a runtime value, as used by the evaluator in
`if (expr.resolve(context))` guards.  `false`, `0`, `NaN`, the empty
string, `null` and `undefined` are falsy; every object (Decimal, array)
is truthy. -/
def jsTruthy : Value → Bool
  | .vNull => false
  | .vInt n => n ≠ 0
  | .vNaN => false
  | .vInf _ => true
  | .vStr s => s ≠ ""
  | .vBool b => b
  | .vDec _ => true

/-- `EvalAnd.resolve` from src/lib/query/nodes.ts lines 609-620, applied
to the list of already-resolved operand values.  For each operand in
order: `null`/`undefined` returns null immediately, a falsy value
returns false, otherwise the loop continues; an exhausted loop returns
true. -/
def evalAnd : List Value → Value
  | [] => .vBool true
  | v :: rest =>
    if v = .vNull then .vNull
    else if jsTruthy v then evalAnd rest
    else .vBool false

/-- The loop body of `EvalOr.resolve` (src/lib/query/nodes.ts lines
650-662) with the running `response` made explicit: a null operand sets
the response to null, a truthy operand returns true immediately, and an
exhausted loop returns the response. -/
def evalOrAux : Value → List Value → Value
  | resp, [] => resp
  | resp, v :: rest =>
    let resp' := if v = .vNull then Value.vNull else resp
    if jsTruthy v then .vBool true else evalOrAux resp' rest

/-- `EvalOr.resolve` from src/lib/query/nodes.ts lines 650-662, applied
to the list of already-resolved operand values: the response starts at
false. -/
def evalOr (vs : List Value) : Value :=
  evalOrAux (.vBool false) vs

/-- `isEqual` from src/lib/query/types.ts lines 343-364 restricted to
the scalar universe: a null (or NaN) left operand compares equal
exactly to nulls; otherwise strict `===` comparison, which is
structural on primitives and identifies two Decimals only when they are
the same object (modelled by their rational value). -/
def valIsEqual (a b : Value) : Bool :=
  if isNull a then isNull b
  else
    match a, b with
    | .vInt n, .vInt m => n = m
    | .vInf p, .vInf q => p = q
    | .vStr s, .vStr t => s = t
    | .vBool p, .vBool q => p = q
    | .vDec p, .vDec q => p = q
    | _, _ => false

/-- The `=` operator as evaluated by `EvalBinaryOp.resolve`
(src/lib/query/nodes.ts lines 792-802 with the `isEqual` operator
registered in src/lib/query/query_env.ts lines 647-653): null operands
propagate to null, otherwise a boolean. -/
def eqOpVal (a b : Value) : Value :=
  if isNull a ∨ isNull b then .vNull else .vBool (valIsEqual a b)

/-- Rendering of the rational value of a Decimal; stands for the string
the Decimal prints as.  Only injectivity in the rational value is ever
used. -/
def decString (q : ℚ) : String :=
  toString q.num ++ "/" ++ toString q.den

/-- JavaScript `String(v)` conversion on the scalar universe (integer
numbers render as their digits). -/
def jsString : Value → String
  | .vNull => "null"
  | .vInt n => toString n
  | .vNaN => "NaN"
  | .vInf true => "Infinity"
  | .vInf false => "-Infinity"
  | .vStr s => s
  | .vBool true => "true"
  | .vBool false => "false"
  | .vDec q => decString q

/-- Element conversion of `Array.prototype.join`: `null` and
`undefined` become the empty string, every other value its `String`
conversion. -/
def joinString (v : Value) : String :=
  if v = .vNull then "" else jsString v

/-- The `>` operator as evaluated by `EvalBinaryOp.resolve` with the
`gt` operator of src/lib/query/query_env.ts (lines 360-426): null
operands propagate to null; numbers and Decimals compare numerically.
Combinations involving DateTime/Duration coercion are outside the
modelled universe; unmatched combinations fall through to the
function's final `return null`. -/
def gtOpVal (a b : Value) : Value :=
  if isNull a ∨ isNull b then .vNull
  else
    match a, b with
    | .vInt n, .vInt m => .vBool (m < n)
    | .vInt n, .vDec q => .vBool (q < (n : ℚ))
    | .vDec q, .vInt m => .vBool ((m : ℚ) < q)
    | .vDec p, .vDec q => .vBool (q < p)
    | _, _ => .vNull

/-- The `<` operator (the `lt` function of src/lib/query/query_env.ts
lines 519-580), same modelling conventions as `gtOpVal`. -/
def ltOpVal (a b : Value) : Value :=
  if isNull a ∨ isNull b then .vNull
  else
    match a, b with
    | .vInt n, .vInt m => .vBool (n < m)
    | .vInt n, .vDec q => .vBool ((n : ℚ) < q)
    | .vDec q, .vInt m => .vBool (q < (m : ℚ))
    | .vDec p, .vDec q => .vBool (p < q)
    | _, _ => .vNull

/-- Window frame types (src/lib/query/window.ts line 4). -/
inductive FrameType where
  | rows
  | groups
  | range
  deriving DecidableEq, Repr

/-- Frame exclusion modes: NO OTHERS / CURRENT ROW / GROUP / TIES
(src/lib/query/window.ts lines 122-143; the engine spells NO OTHERS as
the string NONE). -/
inductive ExcludeMode where
  | noOthers
  | current
  | group
  | ties
  deriving DecidableEq, Repr

/-- A frame clause (src/lib/query/window.ts lines 6-11).  `preceding`
and `following` are JavaScript numbers that may be `Infinity`,
modelled by `Option Nat` with `none` standing for `Infinity`. -/
structure FrameClause where
  ftype : FrameType
  preceding : Option Nat
  following : Option Nat
  exclude : ExcludeMode
  deriving DecidableEq, Repr

/-- The ROWS branch of `windowFunction` (src/lib/query/window.ts lines
64-71) computed on partition positions: `rowStart = max(0, i - p)`
(with `i - Infinity` clamping to 0), `rowEnd = min(len, i + f + 1)`
(with `f = Infinity` giving `len`), window = `slice(rowStart, rowEnd)`
of the positions `0..len-1`. -/
def rowsWindowPositions (len i : Nat) (p f : Option Nat) : List Nat :=
  let rowStart : Nat :=
    match p with
    | none => 0
    | some k => i - k
  let rowEnd : Nat :=
    match f with
    | none => len
    | some k => min len (i + k + 1)
  ((List.range len).drop rowStart).take (rowEnd - rowStart)

/-- The EXCLUDE step of `windowFunction` (src/lib/query/window.ts lines
122-143) on partition positions.  `ov` is the order-value projection
(`props.orderValues`), present exactly when the window has an ORDER BY;
rows are compared to the current row by `it !== partition[i]` (object
identity, here position identity) and by `isEqual` on order values. -/
def applyExclude {α : Type} [DecidableEq α] (excl : ExcludeMode)
    (ov : Option (Nat → α)) (i : Nat) (w : List Nat) : List Nat :=
  match excl with
  | .noOthers => w
  | .current => w.filter (fun j => j ≠ i)
  | .group =>
    match ov with
    | some f => w.filter (fun j => ¬(f j = f i))
    | none => []
  | .ties =>
    match ov with
    | some f => w.filter (fun j => j = i ∨ ¬(f j = f i))
    | none => []

/-- The full per-row ROWS-frame computation of `windowFunction`: slice
then exclusion. -/
def rowsFrame {α : Type} [DecidableEq α] (len i : Nat) (p f : Option Nat)
    (excl : ExcludeMode) (ov : Option (Nat → α)) : List Nat :=
  applyExclude excl ov i (rowsWindowPositions len i p f)

/-- The specification reading of the EXCLUDE modes: which frame rows
are kept relative to the current row `i` and the ORDER-BY equivalence
classes induced by `ov`.  CURRENT drops the current row; GROUP drops
the whole equivalence class of the current row (everything when there
is no ORDER BY); TIES drops that class but keeps the current row. -/
def excludeKeeps {α : Type} [DecidableEq α] (excl : ExcludeMode)
    (ov : Option (Nat → α)) (i j : Nat) : Prop :=
  match excl, ov with
  | .noOthers, _ => True
  | .current, _ => j ≠ i
  | .group, some fn => ¬ fn j = fn i
  | .group, none => False
  | .ties, some fn => j = i ∨ ¬ fn j = fn i
  | .ties, none => False

/-- Type tags of the engine (src/lib/query/types.ts).  Only the tags
reachable in the scalar value universe are modelled. -/
inductive DTy where
  | tNull
  | tInteger
  | tNumber
  | tText
  | tBool
  | tNumeric
  deriving DecidableEq, Repr

/-- `typeOf` from src/lib/query/types.ts: null values (including NaN)
have type Null; an integer-valued number is INTEGER while the
infinities are plain Number; strings, booleans and Decimals map to
their tags. -/
def typeOfVal : Value → DTy
  | .vNull => .tNull
  | .vNaN => .tNull
  | .vInt _ => .tInteger
  | .vInf _ => .tNumber
  | .vStr _ => .tText
  | .vBool _ => .tBool
  | .vDec _ => .tNumeric

/-- `isSameType` from src/lib/query/types.ts lines 501-515: equality,
or the extensions relation; INTEGER is registered with
`extensions: [Number]`, so integer and number match in both
directions. -/
def isSameTy (a b : DTy) : Bool :=
  a = b ∨ (a = .tInteger ∧ b = .tNumber) ∨ (a = .tNumber ∧ b = .tInteger)

/-- The registered name of a type tag (src/lib/query/types.ts
`registerType` calls). -/
def tyName : DTy → String
  | .tNull => "null"
  | .tInteger => "integer"
  | .tNumber => "number"
  | .tText => "string"
  | .tBool => "boolean"
  | .tNumeric => "numeric"

/-- Error raised by `Compiler.compileTargets` when a RANGE frame with an
offset bound does not have exactly one ORDER BY column
(src/lib/query/compiler.ts lines 425-428 and 444-447). -/
def rangeOffsetErr : String :=
  "RANGE with offset PRECEDING/FOLLOWING requires exactly one ORDER BY column"

/-- Error raised by `Compiler.compileTargets` when the single ORDER BY
column of a RANGE frame with an offset bound has type text
(src/lib/query/compiler.ts lines 432-435). -/
def rangeTextErr : String :=
  "RANGE with offset PRECEDING/FOLLOWING is not supported for column type text"

/-- `window.frame.following > 0 && window.frame.following !== Infinity`
(src/lib/query/compiler.ts line 422). -/
def followingPositive : Option Nat → Bool
  | none => false
  | some k => 0 < k

/-- The window-frame validation of `Compiler.compileTargets`
(src/lib/query/compiler.ts lines 411-448).  `orderCols` is the list of
ORDER BY column types of the window, `none` when the window has no
ORDER BY clause.  The first check runs only when ORDER BY is present
and the frame is RANGE with `preceding !== Infinity` or a finite
positive `following`; the second check rejects any RANGE frame whose
ORDER BY column count differs from one. -/
def checkWindowFrame (frame : FrameClause) (orderCols : Option (List DTy)) :
    Except String Unit :=
  let first : Except String Unit :=
    match orderCols with
    | some cols =>
      if frame.ftype = .range ∧
          (frame.preceding ≠ none ∨ followingPositive frame.following) then
        if cols.length ≠ 1 then .error rangeOffsetErr
        else if cols.head? = some .tText then .error rangeTextErr
        else .ok ()
      else .ok ()
    | none => .ok ()
  match first with
  | .error e => .error e
  | .ok _ =>
    if frame.ftype = .range ∧ orderCols.map List.length ≠ some 1 then
      .error rangeOffsetErr
    else .ok ()

/-- Join types (src/lib/query/compiler.ts `compileJoins`). -/
inductive JoinType where
  | inner
  | left
  | right
  | full
  | cross
  | anti
  deriving DecidableEq, Repr

/-- A row produced by a join data loader: `both` models
`(...leftRow, rightKey: rightRow)`, `leftOnly` a bare spread of the
left row, `rightOnly` a record holding only the right row. -/
inductive JRow (L R : Type) where
  | both (l : L) (r : R)
  | leftOnly (l : L)
  | rightOnly (r : R)
  deriving DecidableEq, Repr

/-- The mutable state of a join data loader: the `results` array and
the `matchedRightRows` / `matchedLeftRows` sets (sets of object
references, modelled as lists of row positions). -/
structure JoinState (L R : Type) where
  results : List (JRow L R)
  matchedRight : List Nat
  matchedLeft : List Nat

/-- One iteration of the non-CROSS left-row loop shared by both data
loaders of `Compiler.compileJoins` (src/lib/query/compiler.ts lines
639-673 and 703-733).  `candidates` is the list of indexed right rows
the condition is evaluated against for this left row: the hash-map
bucket of the left key on the fast path, the whole right list on the
nested-loop path.  `rightIdx` is the full indexed right list used by
the RIGHT/FULL unmatched scan. -/
def processLeftRow {L R : Type} (jt : JoinType) (cond : L → R → Bool)
    (rightIdx : List (Nat × R)) (candidates : List (Nat × R))
    (st : JoinState L R) (i : Nat) (l : L) : JoinState L R :=
  let hits := candidates.filter (fun p => cond l p.2)
  let st1 : JoinState L R :=
    { results := st.results ++ hits.map (fun p => JRow.both l p.2)
      matchedRight := st.matchedRight ++ hits.map (fun p => p.1)
      matchedLeft := st.matchedLeft ++ hits.map (fun _ => i) }
  let st2 : JoinState L R :=
    if (hits.isEmpty ∧ jt = .left) ∨ jt = .full then
      { st1 with results := st1.results ++ [JRow.leftOnly l] }
    else st1
  if jt = .right ∨ jt = .full then
    { st2 with
      results := st2.results ++
        ((rightIdx.filter (fun p => ¬ st2.matchedRight.contains p.1)).map
          (fun p => JRow.rightOnly p.2)) }
  else st2

/-- A join data loader of `Compiler.compileJoins`, parameterized by the
candidate right rows examined per left row.  The CROSS branch (lines
621-637 / 689-701) pushes every condition-satisfying pair; the other
branch runs `processLeftRow` over the left rows and afterwards ANTI
returns the unmatched left rows (lines 676-678 / 736-738). -/
def joinLoader {L R : Type} (jt : JoinType) (cond : L → R → Bool)
    (candidates : L → List (Nat × R)) (leftRows : List L)
    (rightRows : List R) : List (JRow L R) :=
  let rightIdx := rightRows.enum
  if jt = .cross then
    leftRows.foldl
      (fun acc l =>
        acc ++ ((candidates l).filter (fun p => cond l p.2)).map
          (fun p => JRow.both l p.2))
      []
  else
    let st := (leftRows.enum).foldl
      (fun st p => processLeftRow jt cond rightIdx (candidates p.2) st p.1 p.2)
      ⟨[], [], []⟩
    if jt = .anti then
      ((leftRows.enum).filter (fun p => ¬ st.matchedLeft.contains p.1)).map
        (fun p => JRow.leftOnly p.2)
    else st.results

/-- The equi-join fast path (src/lib/query/compiler.ts lines 604-683):
a hash map over the right rows keyed by the joined key string is probed
with the left key; the full ON condition is then still evaluated per
candidate.  `rightMap.get(key)` equals, in order, the right rows whose
key string equals the left's. -/
def hashJoinRows {L R : Type} (jt : JoinType) (cond : L → R → Bool)
    (keyL : L → String) (keyR : R → String) (leftRows : List L)
    (rightRows : List R) : List (JRow L R) :=
  joinLoader jt cond
    (fun l => (rightRows.enum).filter (fun p => keyR p.2 = keyL l))
    leftRows rightRows

/-- The nested-loop path (src/lib/query/compiler.ts lines 684-744):
every right row is examined for every left row. -/
def nestedJoinRows {L R : Type} (jt : JoinType) (cond : L → R → Bool)
    (leftRows : List L) (rightRows : List R) : List (JRow L R) :=
  joinLoader jt cond (fun _ => rightRows.enum) leftRows rightRows

/-- Evaluation of an ON condition that is a conjunction of equalities
between plain column references split cleanly between the two sides:
`EvalAnd` over the `=` operator applied to the left-side and right-side
column values, followed by the JavaScript truthiness test
`if (expr.resolve(data))`. -/
def condOfPairs {L R : Type} (pairs : List ((L → Value) × (R → Value)))
    (l : L) (r : R) : Bool :=
  jsTruthy (evalAnd (pairs.map (fun p => eqOpVal (p.1 l) (p.2 r))))

/-- The left-side hash key:
`leftColumns.map((it) => it.resolve(leftRow)).join(":")`
(src/lib/query/compiler.ts lines 622-625 / 641-643). -/
def leftJoinKey {L R : Type} (pairs : List ((L → Value) × (R → Value)))
    (l : L) : String :=
  String.intercalate ":" (pairs.map (fun p => joinString (p.1 l)))

/-- The right-side hash key:
`rightColumns.map((it) => it.resolve(...)).join(":")`
(src/lib/query/compiler.ts lines 610-616). -/
def rightJoinKey {L R : Type} (pairs : List ((L → Value) × (R → Value)))
    (r : R) : String :=
  String.intercalate ":" (pairs.map (fun p => joinString (p.2 r)))

/-- A row object: an association list from column names to values.
Accessing a missing key yields `undefined`, identified with null. -/
abbrev Row : Type := List (String × Value)

/-- Property access `row[key]` on a row object. -/
def rowValue (r : Row) (name : String) : Value :=
  match (r : List (String × Value)).find? (fun p => p.1 = name) with
  | some p => p.2
  | none => .vNull

/-- Assignment `row[key] = v`: replaces the binding in place (rows built
by the engine bind each column name once). -/
def rowSet (r : Row) (name : String) (v : Value) : Row :=
  (r : List (String × Value)).map (fun p => if p.1 = name then (p.1, v) else p)

/-- `JSON.stringify` on a scalar value, as used in the insert
type-error message (src/lib/query/nodes.ts line 289): strings are
quoted, non-finite numbers stringify to null. -/
def jsonStringify : Value → String
  | .vNull => "null"
  | .vNaN => "null"
  | .vInf _ => "null"
  | .vInt n => toString n
  | .vStr s => "\"" ++ s ++ "\""
  | .vBool true => "true"
  | .vBool false => "false"
  | .vDec q => "\"" ++ decString q ++ "\""

/-- `typeCast` from src/lib/query/types.ts lines 302-306 on the scalar
universe: the Decimal registration casts a number (or a Decimal) to a
Decimal; the remaining scalar registrations define no cast, so the
result is `undefined` (`none`).  The DateTime and string-literal cast
branches are outside the modelled universe. -/
def typeCast : Value → DTy → Option Value
  | .vInt n, .tNumeric => some (.vDec (n : ℚ))
  | .vDec q, .tNumeric => some (.vDec q)
  | _, _ => none

/-- A compiled table constraint (src/lib/query/models.ts lines 39-43):
a name, an optional column (for not-null messages) and a compiled
boolean expression resolved against a row. -/
structure TableConstraint where
  name : String
  column : Option String
  pred : Row → Value

/-- The table state an INSERT runs against: name, declared columns in
order, constraints, and the backing data vector. -/
structure TableModel where
  name : String
  columns : List (String × DTy)
  constraints : List TableConstraint
  data : List Row

/-- Per-entry type check of `EvalInsert.resolve` (src/lib/query/nodes.ts
lines 281-296): a value whose type neither matches the column type nor
is Null is coerced with `typeCast`; when the coerced value still does
not match, a type error is raised. -/
def coerceEntry (t : TableModel) (entry : String × Value) :
    Except String (String × Value) :=
  match (t.columns.find? (fun p => p.1 = entry.1)).map (fun p => p.2) with
  | none => .error ("Invalid column: " ++ entry.1)
  | some ty =>
    let tv := typeOfVal entry.2
    if ¬ isSameTy tv ty ∧ tv ≠ .tNull then
      match typeCast entry.2 ty with
      | some c =>
        if isSameTy (typeOfVal c) ty then .ok (entry.1, c)
        else .error ("invalid input syntax for type " ++ tyName ty ++ ": " ++
          jsonStringify entry.2)
      | none =>
        .error ("invalid input syntax for type " ++ tyName ty ++ ": " ++
          jsonStringify entry.2)
    else .ok entry

/-- Error-propagating map over a list: the mapped values, or the first
error. -/
def mapE {α β : Type} (f : α → Except String β) : List α → Except String (List β)
  | [] => .ok []
  | x :: rest =>
    match f x with
    | .error e => .error e
    | .ok y => (mapE f rest).map (fun ys => y :: ys)

/-- The row/record construction loop of `EvalInsert.resolve`
(src/lib/query/nodes.ts lines 279-297): each entry is resolved and
type-coerced in declaration order. -/
def coerceRow (t : TableModel) (item : List (String × Value)) :
    Except String Row :=
  mapE (coerceEntry t) item

/-- The constraint test of `EvalInsert.resolve` line 301:
`value === false || isNull(value)` selects the first violated
constraint, in declaration order. -/
def firstViolation (cs : List TableConstraint) (row : Row) :
    Option TableConstraint :=
  cs.find? (fun c => c.pred row = .vBool false ∨ isNull (c.pred row))

/-- `record.map((it) => (isNull(it) ? "null" : it)).join(", ")` from the
constraint-violation messages (src/lib/query/nodes.ts lines 304, 308). -/
def failingRowStr (record : List Value) : String :=
  String.intercalate ", "
    (record.map (fun v => if isNull v then "null" else jsString v))

/-- The not-null violation message of `EvalInsert.resolve` line 304. -/
def notNullViolationMessage (tbl col : String) (record : List Value) : String :=
  "Failing row contains (" ++ failingRowStr record ++
    "). null value in column \"" ++ col ++ "\" of relation \"" ++ tbl ++
    "\" violates not-null constraint"

/-- The check-constraint violation message of `EvalInsert.resolve`
line 308. -/
def checkViolationMessage (tbl name : String) (record : List Value) : String :=
  "Failing row contains (" ++ failingRowStr record ++
    "). new row for relation \"" ++ tbl ++ "\" violates check constraint \"" ++
    name ++ "\""

/-- Message dispatch of `EvalInsert.resolve` lines 302-309: the
not-null form requires the constraint to be named `not-null` and to
carry a (truthy) column. -/
def violationMessage (tbl : String) (c : TableConstraint)
    (record : List Value) : String :=
  match c.column with
  | some col =>
    if c.name = "not-null" ∧ col ≠ "" then notNullViolationMessage tbl col record
    else checkViolationMessage tbl c.name record
  | none => checkViolationMessage tbl c.name record

/-- Processing of a single VALUES item by `EvalInsert.resolve`: type
coercion of each entry, then every constraint is evaluated on the
coerced row; the result is the coerced row or the error thrown. -/
def processItem (t : TableModel) (item : List (String × Value)) :
    Except String Row :=
  match coerceRow t item with
  | .error e => .error e
  | .ok row =>
    match firstViolation t.constraints row with
    | some c => .error (violationMessage t.name c (row.map (fun p => p.2)))
    | none => .ok row

/-- Sequential processing of several VALUES items: the coerced rows
when every item passes, or the first error. -/
def processItems (t : TableModel) :
    List (List (String × Value)) → Except String (List Row)
  | [] => .ok []
  | i :: rest =>
    match processItem t i with
    | .error e => .error e
    | .ok row => (processItems t rest).map (fun rs => row :: rs)

/-- The VALUES loop of `EvalInsert.resolve` (src/lib/query/nodes.ts
lines 278-315).  Returns the final backing data of the table paired
with either the RETURNING records or the first error thrown: rows are
appended one at a time (`data.push(row)`), so rows appended before a
failure persist. -/
def evalInsertAux (t : TableModel) (accData : List Row)
    (accRows : List (List Value)) :
    List (List (String × Value)) → List Row × Except String (List (List Value))
  | [] => (accData, .ok accRows)
  | item :: rest =>
    match processItem t item with
    | .error e => (accData, .error e)
    | .ok row =>
      evalInsertAux t (accData ++ [row]) (accRows ++ [row.map (fun p => p.2)])
        rest

/-- `EvalInsert.resolve` on a list of already-resolved VALUES items. -/
def evalInsert (t : TableModel) (items : List (List (String × Value))) :
    List Row × Except String (List (List Value)) :=
  evalInsertAux t t.data [] items

/-- Name of an inline column CHECK constraint (src/lib/query/nodes.ts
line 1359): `table_column_check`. -/
def inlineCheckName (table column : String) : String :=
  table ++ "_" ++ column ++ "_check"

/-- `CheckConstraint.constraintName` for a table-level CHECK
(src/unnamed/part_003 lines 543-549): the declared name when non-empty,
otherwise the table name, the column references of the expression and
the suffix check joined by underscores. -/
def tableCheckName (table declared : String) (exprColumns : List String) :
    String :=
  if declared ≠ "" then declared
  else table ++ "_" ++ String.intercalate "_" exprColumns ++ "_check"

/-- The compiled table-level constraint of
`CREATE TABLE t1(a STRING, b INTEGER, CHECK(b > 100))`: the unnamed
CHECK gets `CheckConstraint.constraintName()` (the table name, the
expression's column references and the suffix check), and its
expression compiles to the `>` operator over the column `b` and the
constant 100 (src/lib/query/nodes.ts lines 1365-1379). -/
def t1Constraint : TableConstraint where
  name := tableCheckName "t1" "" ["b"]
  column := none
  pred := fun row => gtOpVal (rowValue row "b") (Value.vInt 100)

/-- The table created by `CREATE TABLE t1(a STRING, b INTEGER,
CHECK(b > 100))`: two typed columns, the compiled check constraint, and
an empty backing data vector. -/
def t1Table : TableModel where
  name := "t1"
  columns := [("a", DTy.tText), ("b", DTy.tInteger)]
  constraints := [t1Constraint]
  data := []

/-- An aggregator's store slot (`store[self.handle]`): either a scalar
accumulator or the materialized list used by count/avg. -/
inductive Cell where
  | cVal (v : Value)
  | cList (l : List Value)
  deriving DecidableEq, Repr

/-- The runtime interface of an aggregator (src/lib/query/nodes.ts
`EvalAggregator` with the callbacks of src/lib/query/query_env.ts):
the store value written at initialize, the update step (which may throw
an OperationalError), the FILTER acceptance test, and the finalize
transformation whose result the aggregator node resolves to. -/
structure Aggregator where
  init : Cell
  update : Cell → Row → Except String Cell
  accept : Row → Bool
  final : Cell → Value

/-- Numeric `store += value` used by `sum` on number-typed operands
(infinities follow IEEE sign rules; an Int plus NaN is NaN). -/
def addNumbers : Value → Value → Value
  | .vInt n, .vInt m => .vInt (n + m)
  | .vInf p, .vInt _ => .vInf p
  | .vInt _, .vInf p => .vInf p
  | .vInf p, .vInf q => if p = q then .vInf p else .vNaN
  | _, _ => .vNaN

/-- `new Decimal(value)` / Decimal addition on the rational model.  A
non-numeric argument models the Big constructor throwing. -/
def decOfValue : Value → Except String ℚ
  | .vInt n => .ok (n : ℚ)
  | .vDec q => .ok q
  | _ => .error "Invalid number"

/-- The engine's `lt(value, current) || value < current` test used by
the `min` aggregator (src/lib/query/query_env.ts line 1602), restricted
to the modelled universe: numeric operands compare numerically; string
operands reach the DateTime-coercion branch of `lt` which throws for
strings that do not parse as dates (the only strings modelled);
remaining combinations are falsy. -/
def cmpLtE : Value → Value → Except String Bool
  | .vInt n, .vInt m => .ok (n < m)
  | .vInt n, .vDec q => .ok ((n : ℚ) < q)
  | .vDec q, .vInt m => .ok (q < (m : ℚ))
  | .vDec p, .vDec q => .ok (p < q)
  | .vStr _, .vStr _ => .error "Unsupported operator"
  | _, _ => .ok false

/-- The engine's `gt(value, current) || value > current` test used by
the `max` aggregator (src/lib/query/query_env.ts line 1622); same
modelling conventions as `cmpLtE`. -/
def cmpGtE : Value → Value → Except String Bool
  | .vInt n, .vInt m => .ok (m < n)
  | .vInt n, .vDec q => .ok (q < (n : ℚ))
  | .vDec q, .vInt m => .ok ((m : ℚ) < q)
  | .vDec p, .vDec q => .ok (q < p)
  | .vStr _, .vStr _ => .error "Unsupported operator"
  | _, _ => .ok false

/-- The `count` aggregator (src/lib/query/query_env.ts lines 1257-1282):
initialize stores an empty array; update pushes the operand value,
skipping nulls unless the operand is `*`; finalize reports the (with
DISTINCT, deduplicated) length. -/
def mkCount (star distinct : Bool) (op : Row → Value) : Aggregator where
  init := .cList []
  update := fun s r =>
    let v := op r
    if ¬ star ∧ isNull v then .ok s
    else
      match s with
      | .cList l => .ok (.cList (l ++ [v]))
      | c => .ok c
  accept := fun _ => true
  final := fun s =>
    match s with
    | .cList l => if distinct then .vInt l.eraseDups.length else .vInt l.length
    | _ => .vNull

/-- The `sum` aggregator (src/lib/query/query_env.ts lines 1284-1316):
initialize stores `Decimal("0.00")` for a Decimal-typed operand and the
number 0 otherwise; update first type-checks the value against the
operand type (throwing an OperationalError on mismatch) and then adds
non-null values; there is no finalize branch, so the store is reported
as-is. -/
def mkSum (opTy : DTy) (op : Row → Value) : Aggregator where
  init := if opTy = .tNumeric then .cVal (.vDec 0) else .cVal (.vInt 0)
  update := fun s r =>
    let v := op r
    if ¬ isSameTy (typeOfVal v) opTy then
      .error ("Invalid type expected: sum(" ++ tyName opTy ++ ")  got: sum(" ++
        tyName (typeOfVal v) ++ ")")
    else if ¬ isNull v then
      match s with
      | .cVal (.vDec q) =>
        match decOfValue v with
        | .ok d => .ok (.cVal (.vDec (q + d)))
        | .error e => .error e
      | .cVal acc => .ok (.cVal (addNumbers acc v))
      | c => .ok c
    else .ok s
  accept := fun _ => true
  final := fun s =>
    match s with
    | .cVal v => v
    | _ => .vNull

/-- The `avg` aggregator (src/lib/query/query_env.ts lines 1318-1354):
initialize stores an empty array; update pushes `new Decimal(value)`
for non-null values whose type strictly equals the operand type
(throwing otherwise); finalize divides the Decimal sum by the count,
and stores `Decimal.ZERO` for an empty array. -/
def mkAvg (opTy : DTy) (op : Row → Value) : Aggregator where
  init := .cList []
  update := fun s r =>
    let v := op r
    if ¬ isNull v then
      if typeOfVal v ≠ opTy then
        .error ("Invalid type expected: avg(" ++ tyName opTy ++ ")  got: avg(" ++
          tyName (typeOfVal v) ++ ")")
      else
        match decOfValue v with
        | .ok d =>
          match s with
          | .cList l => .ok (.cList (l ++ [.vDec d]))
          | c => .ok c
        | .error e => .error e
    else .ok s
  accept := fun _ => true
  final := fun s =>
    match s with
    | .cList l =>
      if l.length ≠ 0 then
        .vDec ((l.foldl (fun acc v =>
          match v with
          | .vDec q => acc + q
          | _ => acc) (0 : ℚ)) / (l.length : ℚ))
      else .vDec 0
    | _ => .vNull

/-- The `min` aggregator (src/lib/query/query_env.ts lines 1589-1607):
initialize stores null; update keeps the smaller non-null value. -/
def mkMin (op : Row → Value) : Aggregator where
  init := .cVal .vNull
  update := fun s r =>
    let v := op r
    if ¬ isNull v then
      match s with
      | .cVal cur =>
        if isNull cur then .ok (.cVal v)
        else
          match cmpLtE v cur with
          | .ok b => .ok (if b then .cVal v else .cVal cur)
          | .error e => .error e
      | c => .ok c
    else .ok s
  accept := fun _ => true
  final := fun s =>
    match s with
    | .cVal v => v
    | _ => .vNull

/-- The `max` aggregator (src/lib/query/query_env.ts lines 1609-1627):
initialize stores null; update keeps the larger non-null value. -/
def mkMax (op : Row → Value) : Aggregator where
  init := .cVal .vNull
  update := fun s r =>
    let v := op r
    if ¬ isNull v then
      match s with
      | .cVal cur =>
        if isNull cur then .ok (.cVal v)
        else
          match cmpGtE v cur with
          | .ok b => .ok (if b then .cVal v else .cVal cur)
          | .error e => .error e
      | c => .ok c
    else .ok s
  accept := fun _ => true
  final := fun s =>
    match s with
    | .cVal v => v
    | _ => .vNull

/-- `aggr.filter((it) => it.accept(context)).forEach((it) =>
it.update(store, context))` of src/lib/query/query_execute.ts lines
121-123, over the per-group store (one slot per aggregator). -/
def updateAll (aggs : List Aggregator) (store : List Cell) (r : Row) :
    Except String (List Cell) :=
  (aggs.zip store).mapM (fun p =>
    if p.1.accept r then p.1.update p.2 r else .ok p.2)

/-- The grouped branch of `executeSelect`
(src/lib/query/query_execute.ts lines 95-157) for a query whose targets
are all aggregates (so `nonAggr` is empty and every input row maps to
the same group key): rows are folded into a single store; if at least
one group exists its finalized values form the output rows; with zero
groups and all-aggregate targets, lines 152-157 emit one row of
initialized-then-finalized aggregates. -/
def executeGroupedAllAgg (aggs : List Aggregator) (input : List Row) :
    Except String (List (List Value)) :=
  match input.foldlM
      (fun (st : Option (List Cell)) (r : Row) =>
        match st with
        | some s => (updateAll aggs s r).map (fun s' => some s')
        | none =>
          (updateAll aggs (aggs.map (fun (a : Aggregator) => a.init)) r).map
            (fun s' => some s'))
      (none : Option (List Cell)) with
  | .error e => .error e
  | .ok (some store) =>
    .ok [(aggs.zip store).map (fun (p : Aggregator × Cell) => p.1.final p.2)]
  | .ok none =>
    .ok [aggs.map (fun (a : Aggregator) => a.final a.init)]

/-- Comparison key of JavaScript relational operators on the modelled
values: numbers, Decimals, null (coerced to 0) and booleans compare
numerically with the infinities at the extremes; NaN and strings have
no numeric key. -/
def numKey : Value → Option (Int × ℚ)
  | .vInt n => some (0, (n : ℚ))
  | .vDec q => some (0, q)
  | .vNull => some (0, 0)
  | .vBool b => some (0, if b then 1 else 0)
  | .vInf true => some (1, 0)
  | .vInf false => some (-1, 0)
  | _ => none

/-- JavaScript `a < b` on the modelled values: strings compare
lexicographically, numeric values by `numKey`; mixed and NaN
comparisons are false. -/
def jsLtB : Value → Value → Bool
  | .vStr s, .vStr t => s < t
  | a, b =>
    match numKey a, numKey b with
    | some (l1, q1), some (l2, q2) => l1 < l2 ∨ (l1 = l2 ∧ q1 < q2)
    | _, _ => false

/-- `sortColumns` with default null handling
(src/lib/query/query_execute.ts lines 344-374) as a
JavaScript-comparator result: the first order column on which the rows
differ decides, negated for DESC. -/
def sortColumnsInt : List (Nat × Bool) → List Value → List Value → Int
  | [], _, _ => 0
  | (idx, asc) :: rest, a, b =>
    let av := a.getD idx .vNull
    let bv := b.getD idx .vNull
    if jsLtB av bv then (if asc then -1 else 1)
    else if jsLtB bv av then (if asc then 1 else -1)
    else sortColumnsInt rest a b

/-- Stable insertion used to model `Array.prototype.sort` with a
comparator: an element is placed after every earlier element that
compares less-or-equal. -/
def insertStable {α : Type} (cmp : α → α → Int) (x : α) : List α → List α
  | [] => [x]
  | y :: ys => if cmp y x ≤ 0 then y :: insertStable cmp x ys else x :: y :: ys

/-- Stable comparator sort modelling `Array.prototype.sort`. -/
def jsSortStable {α : Type} (cmp : α → α → Int) (l : List α) : List α :=
  l.foldl (fun acc x => insertStable cmp x acc) []

/-- `multiColumnSort` (src/lib/query/query_execute.ts lines 310-321):
an empty order spec copies the rows, otherwise a stable comparator
sort with `sortColumns`. -/
def multiColumnSort (data : List (List Value)) (orderSpec : List (Nat × Bool)) :
    List (List Value) :=
  if orderSpec.isEmpty then data
  else jsSortStable (sortColumnsInt orderSpec) data

/-- `isEqual` on two result rows (arrays compare elementwise,
src/lib/query/types.ts lines 352-357). -/
def rowIsEqual (a b : List Value) : Bool :=
  a.length = b.length ∧ (a.zip b).all (fun p => valIsEqual p.1 p.2)

/-- The DISTINCT dedupe of `executeSelect`
(src/lib/query/query_execute.ts lines 292-301): first-seen order is
preserved, equality is row `isEqual`. -/
def dedupeRows (rows : List (List Value)) : List (List Value) :=
  rows.foldl
    (fun acc entry =>
      if acc.any (fun r => rowIsEqual r entry) then acc else acc ++ [entry])
    []

/-- The LIMIT step of `executeSelect`
(src/lib/query/query_execute.ts lines 303-305):
`if (query.limit) rows = rows.slice(0, query.limit)`.  An absent limit
and the falsy limit 0 leave the rows untouched. -/
def applyLimit (limit : Option Nat) (rows : List (List Value)) :
    List (List Value) :=
  match limit with
  | some n => if n = 0 then rows else rows.take n
  | none => rows

/-- The ordering / DISTINCT / LIMIT tail of `executeSelect`
(src/lib/query/query_execute.ts lines 287-305) for a query whose
targets are all visible (the projection to visible columns is then the
identity). -/
def finalizeRows (orderSpec : List (Nat × Bool)) (distinct : Bool)
    (limit : Option Nat) (rows : List (List Value)) : List (List Value) :=
  let sorted := multiColumnSort rows orderSpec
  applyLimit limit (if distinct then dedupeRows sorted else sorted)

/-- The non-aggregated scan of `executeSelect`
(src/lib/query/query_execute.ts lines 158-186) without window targets:
rows passing the (truthiness-tested) WHERE predicate are mapped through
the target expressions unchanged; an empty input with all-constant
targets emits the single constant row. -/
def executePlain (input : List Row) (wpred : Option (Row → Value))
    (targets : List (Row → Value)) (allConstant : Bool) : List (List Value) :=
  let rows := (input.filter (fun r =>
    match wpred with
    | none => true
    | some w => jsTruthy (w r))).map (fun r => targets.map (fun t => t r))
  if input.isEmpty ∧ allConstant then rows ++ [targets.map (fun t => t [])]
  else rows

/-- A complete non-aggregated, non-window query execution: scan, order,
DISTINCT, LIMIT (src/lib/query/query_execute.ts lines 158-307). -/
def executeQueryNoWindow (input : List Row) (wpred : Option (Row → Value))
    (targets : List (Row → Value)) (allConstant : Bool)
    (orderSpec : List (Nat × Bool)) (distinct : Bool) (limit : Option Nat) :
    List (List Value) :=
  finalizeRows orderSpec distinct limit
    (executePlain input wpred targets allConstant)

/-- Modelled from the spec: `Table.toJSON` / `Table.fromJSON` are
declared in src/lib/index.ts and exercised by
src/lib/query/table.spec.ts but their implementation is not under
src/.  An atom of a constraint SELECT expression: a column reference,
an integer literal, or `length(column)`. -/
inductive CAtom where
  | col (c : String)
  | lit (n : Int)
  | strLen (c : String)
  deriving DecidableEq, Repr

/-- Modelled from the spec: comparison operators of a constraint
expression. -/
inductive CmpOp where
  | gtC
  | ltC
  | geC
  | leC
  | eqC
  deriving DecidableEq, Repr

/-- Modelled from the spec: a constraint SELECT expression, per the
forms the persisted-table tests exercise (`artist_id > 0`,
`length(title) > 0`, `album_id IS NOT NULL`). -/
inductive CExpr where
  | cmp (op : CmpOp) (a b : CAtom)
  | notNull (c : String)
  deriving DecidableEq, Repr

/-- Modelled from the spec: rendering of a constraint atom to query
text. -/
def printAtom : CAtom → String
  | .col c => c
  | .lit n => toString n
  | .strLen c => "length(" ++ c ++ ")"

/-- Modelled from the spec: rendering of a comparison operator. -/
def printCmpOp : CmpOp → String
  | .gtC => ">"
  | .ltC => "<"
  | .geC => ">="
  | .leC => "<="
  | .eqC => "="

/-- Modelled from the spec: rendering of a constraint expression as the
`expr` text of the persisted JSON model. -/
def printCExpr : CExpr → String
  | .cmp op a b => printAtom a ++ " " ++ printCmpOp op ++ " " ++ printAtom b
  | .notNull c => c ++ " IS NOT NULL"

/-- Splits a character list on a separator character. -/
def splitOnChar (sep : Char) (acc : List Char) :
    List Char → List (List Char)
  | [] => [acc.reverse]
  | c :: rest =>
    if c = sep then acc.reverse :: splitOnChar sep [] rest
    else splitOnChar sep (c :: acc) rest

/-- Parses an optionally negated decimal integer literal. -/
def intOfChars (l : List Char) : Option Int :=
  let digits := fun (d : List Char) =>
    if d.isEmpty then (none : Option Int)
    else if d.all (fun c => '0' ≤ c ∧ c ≤ '9') then
      some (d.foldl (fun a c => a * 10 + ((c.toNat : Int) - 48)) 0)
    else none
  match l with
  | '-' :: rest => (digits rest).map (fun n => -n)
  | _ => digits l

/-- Modelled from the spec: re-parsing of a constraint atom from
text. -/
def parseAtomChars (l : List Char) : Option CAtom :=
  if l.take 7 = "length(".toList ∧ l.getLast? = some ')' then
    some (.strLen (String.mk ((l.drop 7).dropLast)))
  else
    match intOfChars l with
    | some n => some (.lit n)
    | none => if l ≠ [] then some (.col (String.mk l)) else none

/-- Modelled from the spec: re-parsing of a comparison operator. -/
def parseCmpOp (l : List Char) : Option CmpOp :=
  if l = ['>'] then some .gtC
  else if l = ['<'] then some .ltC
  else if l = ['>', '='] then some .geC
  else if l = ['<', '='] then some .leC
  else if l = ['='] then some .eqC
  else none

/-- Modelled from the spec: re-parsing of a constraint expression from
the persisted `expr` text (the load path compiles the text back into a
boolean expression). -/
def parseCExpr (s : String) : Option CExpr :=
  match splitOnChar ' ' [] s.toList with
  | [c, i, n, u] =>
    if i = "IS".toList ∧ n = "NOT".toList ∧ u = "NULL".toList ∧ c ≠ [] then
      some (.notNull (String.mk c))
    else none
  | [a, op, b] =>
    (parseCmpOp op).bind (fun o =>
      (parseAtomChars a).bind (fun x =>
        (parseAtomChars b).map (fun y => CExpr.cmp o x y)))
  | _ => none

/-- The `>=` operator of the engine, same modelling conventions as
`gtOpVal`. -/
def geOpVal (a b : Value) : Value :=
  if isNull a ∨ isNull b then .vNull
  else
    match a, b with
    | .vInt n, .vInt m => .vBool (m ≤ n)
    | .vInt n, .vDec q => .vBool (q ≤ (n : ℚ))
    | .vDec q, .vInt m => .vBool ((m : ℚ) ≤ q)
    | .vDec p, .vDec q => .vBool (q ≤ p)
    | _, _ => .vNull

/-- The `<=` operator of the engine, same modelling conventions as
`gtOpVal`. -/
def leOpVal (a b : Value) : Value :=
  if isNull a ∨ isNull b then .vNull
  else
    match a, b with
    | .vInt n, .vInt m => .vBool (n ≤ m)
    | .vInt n, .vDec q => .vBool ((n : ℚ) ≤ q)
    | .vDec q, .vInt m => .vBool (q ≤ (m : ℚ))
    | .vDec p, .vDec q => .vBool (p ≤ q)
    | _, _ => .vNull

/-- Dispatch of a comparison operator to the engine operators. -/
def cmpOpVal : CmpOp → Value → Value → Value
  | .gtC, a, b => gtOpVal a b
  | .ltC, a, b => ltOpVal a b
  | .geC, a, b => geOpVal a b
  | .leC, a, b => leOpVal a b
  | .eqC, a, b => eqOpVal a b

/-- Modelled from the spec: evaluation of a constraint atom against a
row; `length` null-propagates like the engine's string function. -/
def evalAtom (r : Row) : CAtom → Value
  | .col c => rowValue r c
  | .lit n => .vInt n
  | .strLen c =>
    match rowValue r c with
    | .vStr s => .vInt (s.length : Int)
    | _ => .vNull

/-- Modelled from the spec: evaluation of a compiled constraint
expression against a row; `IS NOT NULL` is null-safe. -/
def evalCExpr (e : CExpr) (r : Row) : Value :=
  match e with
  | .cmp op a b => cmpOpVal op (evalAtom r a) (evalAtom r b)
  | .notNull c => .vBool (¬ isNull (rowValue r c))

/-- Modelled from the spec: a constraint entry of a persisted table:
name, optional column, and the compiled expression. -/
structure CModel where
  name : String
  column : Option String
  expr : CExpr
  deriving DecidableEq, Repr

/-- Modelled from the spec: the in-memory table the JSON round trip is
stated about: name, ordered typed columns, constraints, data rows. -/
structure Table7 where
  name : String
  columns : List (String × DTy)
  constraints : List CModel
  data : List Row
  deriving DecidableEq, Repr

/-- Modelled from the spec (section 6.3): the persisted table model
with `type` from the cast-name registry and constraint expressions as
text. -/
structure TableJSON where
  name : String
  columns : List (String × String)
  constraints : List (String × Option String × String)
  data : List Row
  deriving DecidableEq, Repr

/-- `typeFor` lookup of a cast-registry type name including the
registered aliases (src/lib/query/types.ts `registerType` calls; the
alias `real` maps to INTEGER and `number` was re-registered to
Number). -/
def parseTyName (s : String) : Option DTy :=
  if s = "integer" ∨ s = "int" ∨ s = "real" then some .tInteger
  else if s = "number" ∨ s = "double" then some .tNumber
  else if s = "string" ∨ s = "str" ∨ s = "text" ∨ s = "varchar" then some .tText
  else if s = "boolean" ∨ s = "bool" then some .tBool
  else if s = "numeric" ∨ s = "decimal" then some .tNumeric
  else if s = "null" then some .tNull
  else none

/-- Modelled from the spec: `Table.toJSON` serializes the name, the
columns with their registered type names, the constraints with their
expressions rendered to text, and the data rows. -/
def toJSON7 (t : Table7) : TableJSON where
  name := t.name
  columns := t.columns.map (fun p => (p.1, tyName p.2))
  constraints := t.constraints.map (fun c => (c.name, c.column, printCExpr c.expr))
  data := t.data

/-- Modelled from the spec: per-column load validation with coercion,
following `Table.fromObject` (src/lib/query/models.ts lines 260-278). -/
def coerceRowCol (row : Row) (col : String × DTy) : Except String Row :=
  let v := rowValue row col.1
  let tv := typeOfVal v
  if ¬ isSameTy tv col.2 ∧ tv ≠ .tNull then
    match typeCast v col.2 with
    | some c =>
      if isSameTy (typeOfVal c) col.2 then .ok (rowSet row col.1 c)
      else .error ("invalid input syntax for type " ++ tyName col.2 ++ ": " ++
        jsonStringify v)
    | none =>
      .error ("invalid input syntax for type " ++ tyName col.2 ++ ": " ++
        jsonStringify v)
  else .ok row

/-- Modelled from the spec: constraint-violation message on load,
mirroring `Table.fromObject` (src/lib/query/models.ts lines 280-300). -/
def cmodelViolationMessage (tbl : String) (c : CModel) (record : List Value) :
    String :=
  match c.column with
  | some col =>
    if c.name = "not-null" ∧ col ≠ "" then notNullViolationMessage tbl col record
    else checkViolationMessage tbl c.name record
  | none => checkViolationMessage tbl c.name record

/-- Modelled from the spec: validation of one loaded row against the
declared types (with coercion) and every constraint. -/
def validateRow (cols : List (String × DTy)) (cons : List CModel)
    (tbl : String) (row : Row) : Except String Row :=
  match cols.foldlM coerceRowCol row with
  | .error e => .error e
  | .ok row' =>
    match cons.find? (fun c =>
        evalCExpr c.expr row' = .vBool false ∨ isNull (evalCExpr c.expr row')) with
    | some c =>
      .error (cmodelViolationMessage tbl c (row'.map (fun p => p.2)))
    | none => .ok row'

/-- Modelled from the spec: resolution of one persisted column entry
against the cast-name registry. -/
def parseColumnEntry (p : String × String) : Except String (String × DTy) :=
  match parseTyName p.2 with
  | some t => .ok (p.1, t)
  | none => .error ("Unknown type: " ++ p.2)

/-- Modelled from the spec: re-parsing and compilation of one persisted
constraint entry. -/
def parseConstraintEntry (c : String × Option String × String) :
    Except String CModel :=
  match parseCExpr c.2.2 with
  | some e => .ok ⟨c.1, c.2.1, e⟩
  | none => .error ("Invalid constraint expression: " ++ c.2.2)

/-- Modelled from the spec: `Table.fromJSON` resolves each column type
from the cast-name registry, re-parses and compiles each constraint
expression from text, and validates every data row. -/
def fromJSON7 (j : TableJSON) : Except String Table7 :=
  match mapE parseColumnEntry j.columns with
  | .error e => .error e
  | .ok cols =>
    match mapE parseConstraintEntry j.constraints with
    | .error e => .error e
    | .ok cons =>
      match mapE (validateRow cols cons j.name) j.data with
      | .error e => .error e
      | .ok data => .ok ⟨j.name, cols, cons, data⟩

/-- A small persisted-table example used as the round-trip witness. -/
def t7Example : Table7 where
  name := "album"
  columns := [("album_id", DTy.tInteger), ("title", DTy.tText),
    ("artist_id", DTy.tInteger)]
  constraints := [
    ⟨"not-null", some "album_id", CExpr.notNull "album_id"⟩,
    ⟨"album_artist_id_check", some "artist_id",
      CExpr.cmp CmpOp.gtC (CAtom.col "artist_id") (CAtom.lit 0)⟩,
    ⟨"name_not_empty", none,
      CExpr.cmp CmpOp.gtC (CAtom.strLen "title") (CAtom.lit 0)⟩]
  data := [[("album_id", Value.vInt 1), ("title", Value.vStr "abc"),
    ("artist_id", Value.vInt 1)]]

/-! Helper lemmas. -/

theorem evalAnd_eq_find (vs : List Value) :
    evalAnd vs =
      match vs.find? (fun v => v == Value.vNull || ! jsTruthy v) with
      | none => .vBool true
      | some v => if v = .vNull then .vNull else .vBool false := by
  induction vs with
  | nil => rfl
  | cons v rest ih =>
    by_cases hv : v = Value.vNull
    · subst hv
      simp [evalAnd, List.find?]
    · by_cases ht : jsTruthy v
      · have hp : (v == Value.vNull || ! jsTruthy v) = false := by
          simp [hv, ht]
        rw [List.find?_cons, hp]
        simpa [evalAnd, hv, ht] using ih
      · have hp : (v == Value.vNull || ! jsTruthy v) = true := by
          simp [ht]
        rw [List.find?_cons, hp]
        simp [evalAnd, hv, ht]

theorem evalAnd_true_iff (vs : List Value) :
    evalAnd vs = .vBool true ↔ ∀ v ∈ vs, v ≠ Value.vNull ∧ jsTruthy v := by
  induction vs with
  | nil => simp [evalAnd]
  | cons v rest ih =>
    by_cases hv : v = Value.vNull
    · subst hv; simp [evalAnd]
    · by_cases ht : jsTruthy v
      · simp [evalAnd, hv, ht, ih]
      · simp [evalAnd, hv, ht]

theorem evalOrAux_spec (vs : List Value) :
    ∀ resp, resp = .vBool false ∨ resp = .vNull →
      evalOrAux resp vs =
        if vs.any jsTruthy then .vBool true
        else if resp = .vNull ∨ Value.vNull ∈ vs then .vNull else resp := by
  induction vs with
  | nil =>
    intro resp h
    rcases h with h | h <;> subst h <;> simp [evalOrAux]
  | cons v rest ih =>
    intro resp h
    by_cases ht : jsTruthy v
    · simp [evalOrAux, ht]
    · by_cases hv : v = Value.vNull
      · subst hv
        rw [show evalOrAux resp (Value.vNull :: rest) = evalOrAux Value.vNull rest from by
          simp [evalOrAux, ht]]
        rw [ih Value.vNull (Or.inr rfl)]
        simp [ht]
      · rw [show evalOrAux resp (v :: rest) = evalOrAux resp rest from by
          simp [evalOrAux, ht, hv]]
        rw [ih resp h]
        simp [List.any_cons, ht, List.mem_cons, Ne.symm hv]

theorem drop_range_eq (s len : Nat) :
    (List.range len).drop s = List.range' s (len - s) := by
  apply List.ext_getElem
  · simp
  · intro i h1 h2
    simp [List.getElem_drop, List.getElem_range, List.getElem_range']

theorem take_range'_eq (s m t : Nat) :
    (List.range' s m).take t = List.range' s (min t m) := by
  apply List.ext_getElem
  · simp
  · intro i h1 h2
    simp [List.getElem_take, List.getElem_range']

/-! C1. -/

/-- C1 (amended): over boolean-typed operand values, OR follows Kleene
three-valued logic (true dominates, else null propagates); AND is
decided by its first null-or-falsy operand, yielding NULL when that
operand is null even if a later operand is FALSE. -/
theorem c1_and_or_three_valued (vs : List Value)
    (hb : ∀ v ∈ vs, v = Value.vNull ∨ ∃ b, v = Value.vBool b) :
    (evalOr vs =
      if Value.vBool true ∈ vs then Value.vBool true
      else if Value.vNull ∈ vs then Value.vNull
      else Value.vBool false) ∧
    (evalAnd vs =
      match vs.find? (fun v => v == Value.vNull || ! jsTruthy v) with
      | none => .vBool true
      | some v => if v = .vNull then .vNull else .vBool false) := by
  refine ⟨?_, evalAnd_eq_find vs⟩
  rw [evalOr, evalOrAux_spec vs _ (Or.inl rfl)]
  by_cases hmem : Value.vBool true ∈ vs
  · have hany : vs.any jsTruthy = true := List.any_eq_true.mpr ⟨_, hmem, rfl⟩
    simp [hany, hmem]
  · have hany : vs.any jsTruthy = false := by
      rw [List.any_eq_false]
      intro x hx
      rcases hb x hx with h | ⟨b, h⟩
      · subst h; simp [jsTruthy]
      · subst h
        cases b
        · simp [jsTruthy]
        · exact absurd hx hmem
    simp [hany, hmem]

/-- C1 witness: OR over the operand values NULL, TRUE yields TRUE. -/
theorem c1_and_or_three_valued_witness :
    evalOr [Value.vNull, Value.vBool true] =
      (if Value.vBool true ∈ [Value.vNull, Value.vBool true] then Value.vBool true
       else if Value.vNull ∈ [Value.vNull, Value.vBool true] then Value.vNull
       else Value.vBool false) :=
  (c1_and_or_three_valued [Value.vNull, Value.vBool true] (by decide)).1

/-- C1 counterexample: an AND whose operands evaluate to NULL and FALSE
(in that order) yields NULL, not FALSE as the claim states:
`EvalAnd.resolve` returns null at the first null operand without
examining the later FALSE. -/
theorem c1_counterexample :
    evalAnd [Value.vNull, Value.vBool false] = Value.vNull ∧
      Value.vNull ≠ Value.vBool false := by decide

/-! C3. -/

/-- C3: for a sorted partition of length `len` and current index `i`, a
ROWS frame keeps exactly the positions within `preceding` before and
`following` after `i` (an Infinity bound reaching the partition edge),
and EXCLUDE is applied last with CURRENT dropping the current row,
GROUP dropping the current row's ORDER-BY equivalence class (the whole
window when there is no ORDER BY), and TIES dropping that class while
keeping the current row. -/
theorem c3_rows_frame {α : Type} [DecidableEq α] (len i : Nat)
    (p f : Option Nat) (excl : ExcludeMode) (ov : Option (Nat → α)) :
    (∀ j, j ∈ rowsWindowPositions len i p f ↔
      (j < len ∧ (∀ k, p = some k → i - k ≤ j) ∧
        (∀ m, f = some m → j < i + m + 1))) ∧
    (rowsFrame len i p f ExcludeMode.group (none : Option (Nat → α)) = []) ∧
    (∀ j, j ∈ rowsFrame len i p f excl ov ↔
      (j ∈ rowsWindowPositions len i p f ∧ excludeKeeps excl ov i j)) := by
  refine ⟨?_, rfl, ?_⟩
  · intro j
    rcases p with _ | k <;> rcases f with _ | m <;>
      simp [rowsWindowPositions, drop_range_eq, take_range'_eq,
        List.mem_range'_1, List.take_range, List.mem_range] <;> omega
  · intro j
    cases excl <;> rcases ov with _ | fn <;>
      simp [rowsFrame, applyExclude, excludeKeeps, List.mem_filter]

/-! C6. -/

/-- C6: compiling a window function whose frame is RANGE with an offset
bound (a finite, non-zero preceding or following) fails unless the
window has exactly one ORDER BY column, and fails with the
text-column error when that single ORDER BY column has type text. -/
theorem c6_range_offset_checks (frame : FrameClause)
    (orderCols : Option (List DTy)) (hr : frame.ftype = .range)
    (hoff : (∃ k, frame.preceding = some k ∧ 0 < k) ∨
      (∃ k, frame.following = some k ∧ 0 < k)) :
    (orderCols.map List.length ≠ some 1 →
      ∃ e, checkWindowFrame frame orderCols = .error e) ∧
    (orderCols = some [DTy.tText] →
      checkWindowFrame frame orderCols = .error rangeTextErr) := by
  have hguard : frame.preceding ≠ none ∨ followingPositive frame.following := by
    rcases hoff with ⟨k, hk, _⟩ | ⟨k, hk, hpos⟩
    · left; simp [hk]
    · right; simp [followingPositive, hk, hpos]
  constructor
  · intro hlen
    rcases ho : orderCols with _ | cols
    · exact ⟨rangeOffsetErr, by simp [checkWindowFrame, hr]⟩
    · subst ho
      have hlc : cols.length ≠ 1 := by simpa using hlen
      exact ⟨rangeOffsetErr, by simp [checkWindowFrame, hr, hguard, hlc]⟩
  · intro ho
    subst ho
    simp [checkWindowFrame, hr, hguard]

/-- C6 witness: a RANGE frame with 10 PRECEDING over a single text
ORDER BY column is rejected with the text-column error. -/
theorem c6_range_offset_checks_witness :
    checkWindowFrame
        ⟨FrameType.range, some 10, some 0, ExcludeMode.noOthers⟩
        (some [DTy.tText]) = .error rangeTextErr :=
  (c6_range_offset_checks
      ⟨FrameType.range, some 10, some 0, ExcludeMode.noOthers⟩
      (some [DTy.tText]) rfl (Or.inl ⟨10, rfl, by decide⟩)).2 rfl

/-! C9. -/

/-- C9 (amended): after ordering and DISTINCT the rows are sliced to
the first n rows for every n with 1 ≤ n, so the result has at most n
rows; but the limit 0 is falsy in the `if (query.limit)` guard, so a
LIMIT 0 query is executed exactly like one without LIMIT instead of
returning zero rows. -/
theorem c9_limit_slicing (input : List Row) (wpred : Option (Row → Value))
    (targets : List (Row → Value)) (allConstant : Bool)
    (orderSpec : List (Nat × Bool)) (distinct : Bool) (n : Nat)
    (hn : 1 ≤ n) :
    (executeQueryNoWindow input wpred targets allConstant orderSpec distinct
      (some n)).length ≤ n ∧
    executeQueryNoWindow input wpred targets allConstant orderSpec distinct
        (some 0) =
      executeQueryNoWindow input wpred targets allConstant orderSpec distinct
        none := by
  have hne : n ≠ 0 := by omega
  constructor
  · simp [executeQueryNoWindow, finalizeRows, applyLimit, hne]
  · simp [executeQueryNoWindow, finalizeRows, applyLimit]

/-- C9 witness: LIMIT 1 over a two-row input returns at most one row. -/
theorem c9_limit_slicing_witness :
    (executeQueryNoWindow [[("x", Value.vInt 1)], [("x", Value.vInt 2)]] none
      [fun r => rowValue r "x"] false [] false (some 1)).length ≤ 1 :=
  (c9_limit_slicing [[("x", Value.vInt 1)], [("x", Value.vInt 2)]] none
    [fun r => rowValue r "x"] false [] false 1 (by decide)).1

/-- C9 counterexample: a query with LIMIT 0 over a one-row input
returns that row, not zero rows: `if (query.limit)` is false for 0 and
the slice is skipped. -/
theorem c9_counterexample :
    executeQueryNoWindow [[("x", Value.vInt 1)]] none
        [fun r => rowValue r "x"] false [] false (some 0) =
      [[Value.vInt 1]] ∧
    ([[Value.vInt 1]] : List (List Value)) ≠ [] := by
  constructor
  · rfl
  · simp

/-! C8. -/

/-- C8 (amended): `isNull` identifies NaN (but not the infinities) with
null during evaluation, and executed result rows are emitted without
any normalization: the non-aggregated execution pipeline is the
identity on the resolved target values, so NaN and infinite numbers
reach the output unchanged. -/
theorem c8_no_output_normalization (input : List Row)
    (targets : List (Row → Value)) :
    isNull Value.vNaN = true ∧
    (∀ b, isNull (Value.vInf b) = false) ∧
    executeQueryNoWindow input none targets false [] false none =
      input.map (fun r => targets.map (fun t => t r)) := by
  refine ⟨rfl, fun b => rfl, ?_⟩
  simp [executeQueryNoWindow, finalizeRows, applyLimit, multiColumnSort,
    executePlain]

/-- C8 counterexample: executing a query over a row holding +Infinity
produces a result row that contains +Infinity, which is not normalized
to Null (and is not even classified as null by `isNull`). -/
theorem c8_counterexample :
    executeQueryNoWindow [[("x", Value.vInf true)]] none
        [fun r => rowValue r "x"] false [] false none =
      [[Value.vInf true]] ∧
    Value.vInf true ≠ Value.vNull ∧ isNull (Value.vInf true) = false := by
  refine ⟨rfl, by decide, rfl⟩

/-! C2. -/

/-- C2 (amended): a grouped query whose targets are all aggregates
emits, over an input of zero rows, exactly one row holding every
aggregator's initialized-then-finalized value; there count(*) is 0 and
min and max are NULL, but sum is 0 (Decimal zero for a Decimal-typed
operand) and avg is Decimal zero, not NULL. -/
theorem c2_empty_aggregates (aggs : List Aggregator) (op : Row → Value) :
    executeGroupedAllAgg aggs [] =
      .ok [aggs.map (fun a => a.final a.init)] ∧
    executeGroupedAllAgg
        [mkCount true false op, mkSum DTy.tInteger op, mkSum DTy.tNumeric op,
          mkAvg DTy.tNumber op, mkMin op, mkMax op] [] =
      .ok [[Value.vInt 0, Value.vInt 0, Value.vDec 0, Value.vDec 0,
        Value.vNull, Value.vNull]] := by
  exact ⟨rfl, rfl⟩

/-- C2 counterexample: sum over an empty input equals 0, not NULL: the
`sum` aggregator initializes its accumulator to 0 and has no finalize
branch, so the empty-input row emitted by `executeSelect` holds 0. -/
theorem c2_counterexample :
    executeGroupedAllAgg [mkSum DTy.tInteger (fun _ => Value.vNull)] [] =
      .ok [[Value.vInt 0]] ∧ Value.vInt 0 ≠ Value.vNull := by
  exact ⟨rfl, by decide⟩

/-! C4. -/

theorem filter_subsume {α : Type} (p q : α → Bool) (xs : List α)
    (h : ∀ a ∈ xs, q a = true → p a = true) :
    (xs.filter p).filter q = xs.filter q := by
  induction xs with
  | nil => rfl
  | cons x rest ih =>
    have hr : ∀ a ∈ rest, q a = true → p a = true := fun a ha =>
      h a (List.mem_cons_of_mem _ ha)
    by_cases hq : q x
    · have hp : p x = true := h x (List.mem_cons_self _ _) hq
      simp [List.filter_cons, hp, hq, ih hr]
    · by_cases hp : p x <;> simp [List.filter_cons, hp, hq, ih hr]

theorem processLeftRow_congr {L R : Type} (jt : JoinType) (cond : L → R → Bool)
    (rightIdx : List (Nat × R)) (cand1 cand2 : List (Nat × R))
    (st : JoinState L R) (i : Nat) (l : L)
    (h : cand1.filter (fun p => cond l p.2) =
      cand2.filter (fun p => cond l p.2)) :
    processLeftRow jt cond rightIdx cand1 st i l =
      processLeftRow jt cond rightIdx cand2 st i l := by
  simp only [processLeftRow, h]

theorem joinLoader_congr {L R : Type} (jt : JoinType) (cond : L → R → Bool)
    (cand1 cand2 : L → List (Nat × R)) (leftRows : List L)
    (rightRows : List R)
    (h : ∀ l, (cand1 l).filter (fun p => cond l p.2) =
      (cand2 l).filter (fun p => cond l p.2)) :
    joinLoader jt cond cand1 leftRows rightRows =
      joinLoader jt cond cand2 leftRows rightRows := by
  unfold joinLoader
  by_cases hc : jt = .cross
  · simp only [hc, if_pos]
    have hfun :
        (fun (acc : List (JRow L R)) (l : L) =>
          acc ++ ((cand1 l).filter (fun p => cond l p.2)).map
            (fun p => JRow.both l p.2)) =
        (fun (acc : List (JRow L R)) (l : L) =>
          acc ++ ((cand2 l).filter (fun p => cond l p.2)).map
            (fun p => JRow.both l p.2)) := by
      funext acc l
      rw [h l]
    rw [hfun]
  · simp only [hc, if_neg, if_false]
    have hfun :
        (fun (st : JoinState L R) (p : Nat × L) =>
          processLeftRow jt cond rightRows.enum (cand1 p.2) st p.1 p.2) =
        (fun (st : JoinState L R) (p : Nat × L) =>
          processLeftRow jt cond rightRows.enum (cand2 p.2) st p.1 p.2) := by
      funext st p
      exact processLeftRow_congr jt cond rightRows.enum _ _ st p.1 p.2 (h p.2)
    rw [hfun]

theorem valIsEqual_eq {a b : Value} (ha : isNull a = false)
    (h : valIsEqual a b = true) : a = b := by
  cases a <;> cases b <;> simp_all [valIsEqual, isNull]

theorem eqOpVal_truthy_eq {a b : Value}
    (h : jsTruthy (eqOpVal a b) = true) : a = b := by
  by_cases hn : isNull a ∨ isNull b
  · simp [eqOpVal, hn, jsTruthy] at h
  · rw [eqOpVal, if_neg hn] at h
    push_neg at hn
    exact valIsEqual_eq (by simpa using hn.1) (by simpa [jsTruthy] using h)

theorem evalAnd_shape (vs : List Value) :
    evalAnd vs = .vNull ∨ evalAnd vs = .vBool false ∨
      evalAnd vs = .vBool true := by
  induction vs with
  | nil => simp [evalAnd]
  | cons v rest ih =>
    by_cases hv : v = Value.vNull
    · simp [evalAnd, hv]
    · by_cases ht : jsTruthy v <;> simp [evalAnd, hv, ht, ih]

theorem condOfPairs_keys {L R : Type}
    (pairs : List ((L → Value) × (R → Value))) (l : L) (r : R)
    (h : condOfPairs pairs l r = true) :
    leftJoinKey pairs l = rightJoinKey pairs r := by
  have hAnd : evalAnd (pairs.map fun p => eqOpVal (p.1 l) (p.2 r)) =
      .vBool true := by
    rcases evalAnd_shape (pairs.map fun p => eqOpVal (p.1 l) (p.2 r)) with
      hs | hs | hs
    · rw [condOfPairs, hs] at h; simp [jsTruthy] at h
    · rw [condOfPairs, hs] at h; simp [jsTruthy] at h
    · exact hs
  have hall := (evalAnd_true_iff _).mp hAnd
  unfold leftJoinKey rightJoinKey
  congr 1
  apply List.map_congr_left
  intro p hp
  have hmem : eqOpVal (p.1 l) (p.2 r) ∈
      pairs.map fun p => eqOpVal (p.1 l) (p.2 r) :=
    List.mem_map_of_mem _ hp
  have := (hall _ hmem).2
  rw [eqOpVal_truthy_eq this]

/-- C4: for every join type, left and right inputs, and an ON condition
that is a conjunction of equalities on plain column references split
cleanly between the two sides, the equi-join hash fast path produces
the same list of result rows (hence the same bag) as the nested-loop
path with full condition evaluation: the hash probe only discards right
rows whose key string differs from the left's, and a pair satisfying
the condition always has equal key strings. -/
theorem c4_hash_join_equivalence {L R : Type} (jt : JoinType)
    (pairs : List ((L → Value) × (R → Value))) (leftRows : List L)
    (rightRows : List R) :
    hashJoinRows jt (condOfPairs pairs) (leftJoinKey pairs)
        (rightJoinKey pairs) leftRows rightRows =
      nestedJoinRows jt (condOfPairs pairs) leftRows rightRows := by
  unfold hashJoinRows nestedJoinRows
  apply joinLoader_congr
  intro l
  apply filter_subsume
  intro p _ hc
  have hk := condOfPairs_keys pairs l p.2 hc
  simp [hk]

/-! C5. -/

/-- C5: on INSERT every constraint is evaluated on the coerced row
before the row is appended: a violated constraint aborts with the
exact violation message and nothing is appended, while a row passing
every constraint is appended before the next item is processed; an
inline column CHECK is named table_column_check, the unnamed
table-level CHECK of the scenario is named t1_b_check, and the scenario
INSERT raises the literal message of the claim. -/
theorem c5_insert_constraint_errors (t : TableModel)
    (item : List (String × Value)) (items : List (List (String × Value)))
    (row : Row) (c : TableConstraint) (hc : coerceRow t item = .ok row) :
    (firstViolation t.constraints row = some c →
      evalInsert t (item :: items) =
        (t.data, .error (violationMessage t.name c (row.map (fun p => p.2)))) ∧
      (c.column = none →
        violationMessage t.name c (row.map (fun p => p.2)) =
          checkViolationMessage t.name c.name (row.map (fun p => p.2)))) ∧
    (firstViolation t.constraints row = none →
      evalInsert t (item :: items) =
        evalInsertAux t (t.data ++ [row]) [row.map (fun p => p.2)] items) ∧
    inlineCheckName "t1" "b" = "t1_b_check" ∧
    t1Constraint.name = "t1_b_check" ∧
    evalInsert t1Table [[("a", Value.vStr "a"), ("b", Value.vInt 55)]] =
      ([], .error ("Failing row contains (a, 55). new row for relation \"t1\"" ++
        " violates check constraint \"t1_b_check\"")) := by
  refine ⟨?_, ?_, rfl, rfl, rfl⟩
  · intro hv
    refine ⟨?_, ?_⟩
    · simp [evalInsert, evalInsertAux, processItem, hc, hv]
    · intro hcol
      simp [violationMessage, hcol]
  · intro hv
    simp [evalInsert, evalInsertAux, processItem, hc, hv]

/-- C5 witness: the scenario INSERT INTO t1(a,b) VALUES('a',55) against
CHECK(b > 100) raises the claim's message. -/
theorem c5_insert_constraint_errors_witness :
    evalInsert t1Table [[("a", Value.vStr "a"), ("b", Value.vInt 55)]] =
      ([], .error (violationMessage "t1" t1Constraint
        [Value.vStr "a", Value.vInt 55])) :=
  ((c5_insert_constraint_errors t1Table
      [("a", Value.vStr "a"), ("b", Value.vInt 55)] []
      [("a", Value.vStr "a"), ("b", Value.vInt 55)] t1Constraint rfl).1 rfl).1

/-! C10. -/

theorem evalInsertAux_ok_step (t : TableModel) (d : List Row)
    (rs : List (List Value)) (item : List (String × Value))
    (rest : List (List (String × Value))) (row : Row)
    (h : processItem t item = .ok row) :
    evalInsertAux t d rs (item :: rest) =
      evalInsertAux t (d ++ [row]) (rs ++ [row.map (fun p => p.2)]) rest := by
  simp [evalInsertAux, h]

theorem evalInsertAux_prefix_steps (t : TableModel)
    (pre : List (List (String × Value))) :
    ∀ (d : List Row) (rs : List (List Value)) (rows : List Row)
      (more : List (List (String × Value))),
      processItems t pre = .ok rows →
      evalInsertAux t d rs (pre ++ more) =
        evalInsertAux t (d ++ rows) (rs ++ rows.map (fun r => r.map
          (fun p => p.2))) more := by
  induction pre with
  | nil =>
    intro d rs rows more h
    simp [processItems] at h
    subst h
    simp
  | cons p ps ih =>
    intro d rs rows more h
    cases hp : processItem t p with
    | error e => rw [processItems, hp] at h; simp at h
    | ok row =>
      rw [processItems, hp] at h
      cases hps : processItems t ps with
      | error e => rw [hps] at h; simp [Except.map] at h
      | ok rows' =>
        rw [hps] at h
        simp [Except.map] at h
        subst h
        rw [List.cons_append, evalInsertAux_ok_step t d rs p _ row hp,
          ih (d ++ [row]) (rs ++ [row.map (fun p => p.2)]) rows' more hps]
        simp

/-- C10: a multi-row INSERT is not atomic: rows are coerced,
constraint-checked and appended one at a time in order, so when a later
item fails every earlier valid row of the same INSERT remains appended
to the table's backing data while the statement throws the failing
item's error. -/
theorem c10_insert_not_atomic (t : TableModel)
    (pre : List (List (String × Value))) (bad : List (String × Value))
    (post : List (List (String × Value))) (rows : List Row) (e : String)
    (hpre : processItems t pre = .ok rows)
    (hbad : processItem t bad = .error e) :
    evalInsert t (pre ++ bad :: post) = (t.data ++ rows, .error e) := by
  rw [evalInsert, evalInsertAux_prefix_steps t pre t.data [] rows (bad :: post) hpre]
  simp [evalInsertAux, hbad]

/-- C10 witness: inserting ('x', 200) then ('a', 55) into t1 with
CHECK(b > 100) throws on the second row while the first row remains in
the table data. -/
theorem c10_insert_not_atomic_witness :
    evalInsert t1Table
        [[("a", Value.vStr "x"), ("b", Value.vInt 200)],
          [("a", Value.vStr "a"), ("b", Value.vInt 55)]] =
      ([[("a", Value.vStr "x"), ("b", Value.vInt 200)]],
        .error (violationMessage "t1" t1Constraint
          [Value.vStr "a", Value.vInt 55])) := by
  have h := c10_insert_not_atomic t1Table
    [[("a", Value.vStr "x"), ("b", Value.vInt 200)]]
    [("a", Value.vStr "a"), ("b", Value.vInt 55)] []
    [[("a", Value.vStr "x"), ("b", Value.vInt 200)]]
    (violationMessage "t1" t1Constraint [Value.vStr "a", Value.vInt 55])
    rfl rfl
  simpa using h

/-! C7. -/

theorem parseTyName_tyName (d : DTy) : parseTyName (tyName d) = some d := by
  cases d <;> decide

theorem mapE_ok {α β : Type} (f : α → Except String β) (g : α → β)
    (l : List α) (h : ∀ a ∈ l, f a = .ok (g a)) : mapE f l = .ok (l.map g) := by
  induction l with
  | nil => rfl
  | cons x xs ih =>
    simp only [mapE]
    rw [h x (List.mem_cons_self _ _),
      ih (fun a ha => h a (List.mem_cons_of_mem _ ha))]
    rfl

theorem mapE_columns_round (cols : List (String × DTy)) :
    mapE parseColumnEntry (cols.map (fun p => (p.1, tyName p.2))) =
      .ok cols := by
  induction cols with
  | nil => rfl
  | cons p ps ih =>
    simp [mapE, parseColumnEntry, parseTyName_tyName, ih, Except.map]

theorem mapE_constraints_round (cs : List CModel)
    (hr : ∀ c ∈ cs, parseCExpr (printCExpr c.expr) = some c.expr) :
    mapE parseConstraintEntry
      (cs.map (fun c => (c.name, c.column, printCExpr c.expr))) = .ok cs := by
  induction cs with
  | nil => rfl
  | cons c rest ih =>
    have hc := hr c (List.mem_cons_self _ _)
    have hrest := ih (fun x hx => hr x (List.mem_cons_of_mem _ hx))
    simp [mapE, parseConstraintEntry, hc, hrest, Except.map]

/-- C7 (spec-modelled): for every table whose constraints are
recoverable from their rendered SELECT expressions and whose data rows
validate against the declared types and constraints,
`Table.fromJSON(Table.toJSON(t))` reconstructs exactly t: the name,
columns with types, constraints (re-parsed and compiled from text) and
data rows are all preserved, each loaded row having been validated. -/
theorem c7_table_json_round_trip (t : Table7)
    (hrec : ∀ c ∈ t.constraints, parseCExpr (printCExpr c.expr) = some c.expr)
    (hval : ∀ row ∈ t.data,
      validateRow t.columns t.constraints t.name row = .ok row) :
    fromJSON7 (toJSON7 t) = .ok t := by
  have hcols := mapE_columns_round t.columns
  have hcons := mapE_constraints_round t.constraints hrec
  have hdata : mapE (validateRow t.columns t.constraints t.name) t.data =
      .ok t.data := by
    have h := mapE_ok (validateRow t.columns t.constraints t.name)
      (fun r : Row => r) t.data hval
    simpa using h
  simp [fromJSON7, toJSON7, hcols, hcons, hdata]

/-- C7 witness: the example table with a not-null constraint, a column
check and a table check round-trips through the JSON model. -/
theorem c7_table_json_round_trip_witness :
    fromJSON7 (toJSON7 t7Example) = .ok t7Example :=
  c7_table_json_round_trip t7Example (by decide)
    (by
      intro row hr
      rw [show t7Example.data = [[("album_id", Value.vInt 1),
        ("title", Value.vStr "abc"), ("artist_id", Value.vInt 1)]] from rfl,
        List.mem_singleton] at hr
      subst hr
      rfl)

end PeaQL
